import Mathlib

/-!
Verification of the Ingestion & Retrieval Engine of the PanScience backend:
a shallow embedding of `app/services/vector_store.py`, `app/services/chunking.py`,
`app/services/rag_chat.py`, `app/services/document_processor.py` and
`app/api/chat.py`, with theorems settling the frozen claims about them.

Machine floats are modelled by rationals; `np.linalg.norm` (a square root) is
kept as an explicit function parameter `sqrt` so every definition stays
executable.  `faiss.IndexFlatIP` stores the raw vectors it is given and its
`search` is exact brute-force inner-product search returning the top `k`
(index, score) pairs in descending score order; `reconstruct i` returns the
stored vector at position `i`.
-/

namespace PanScience

/-- A metadata dict as stored per vector (Python `Dict`, string-keyed). -/
abbrev Metadata := List (String × String)

/-- Python `dict.get`: the value at the first matching key, `none` when absent. -/
def Metadata.get (m : Metadata) (k : String) : Option String :=
  (m.find? (fun p => p.1 == k)).map Prod.snd

/-- The mutable state of `FAISSVectorStore` (vector_store.py:18-38): the
`IndexFlatIP` contents in insertion order and the parallel metadata list. -/
structure FAISSVectorStore where
  dimension : Nat
  vectors : List (List ℚ)
  metadata : List Metadata
deriving Repr, DecidableEq

/-- `FAISSVectorStore._initialize_index` (vector_store.py:60-66): a fresh empty
index of the configured dimension and an empty metadata list. -/
def initialize_index (dimension : Nat) : FAISSVectorStore :=
  { dimension := dimension, vectors := [], metadata := [] }

/-- The durable snapshot written by `save_index` (vector_store.py:68-83):
`index.faiss` holds the vectors, `metadata.pkl` the parallel metadata list. -/
structure IndexSnapshot where
  index_file : List (List ℚ)
  metadata_file : List Metadata
deriving Repr, DecidableEq

/-- `FAISSVectorStore.save_index` (vector_store.py:68-83). -/
def save_index (s : FAISSVectorStore) : IndexSnapshot :=
  { index_file := s.vectors, metadata_file := s.metadata }

/-- `FAISSVectorStore._load_index` (vector_store.py:40-58): load the snapshot
when both files exist and are readable (`some snap`), else initialize empty. -/
def load_index (dimension : Nat) (snap : Option IndexSnapshot) : FAISSVectorStore :=
  match snap with
  | some sn => { dimension := dimension, vectors := sn.index_file, metadata := sn.metadata_file }
  | none => initialize_index dimension

/-- Squared Euclidean norm; `np.linalg.norm v = sqrt (normSq v)`. -/
def normSq (v : List ℚ) : ℚ :=
  (v.map (fun x => x * x)).sum

/-- `FAISSVectorStore._normalize_vector` (vector_store.py:85-90), with
`np.linalg.norm` passed in as `sqrt` composed with `normSq`: a zero norm
returns the vector unchanged, otherwise every entry is divided by the norm. -/
def normalize_vector (sqrt : ℚ → ℚ) (v : List ℚ) : List ℚ :=
  let norm := sqrt (normSq v)
  if norm = 0 then v else v.map (fun x => x / norm)

/-- `FAISSVectorStore.add_vectors` (vector_store.py:92-146).  Returns the new
state and whether `save_index` ran (the periodic save at line 139-140), or the
message of the `ValueError` raised.  Every raise in the Python body happens
before `self.index.add` and `self.metadata.extend`, the only two mutations, so
an error leaves the store unchanged; the model keeps that shape by returning
errors before building the new state.  `np.array` on a ragged list of lists
raises, and otherwise `vectors.shape[1]` is the common row length, compared
with the configured dimension at line 120-121. -/
def add_vectors (sqrt : ℚ → ℚ) (s : FAISSVectorStore)
    (embeddings : List (List ℚ)) (metadata : List Metadata) :
    Except String (FAISSVectorStore × Bool) :=
  if embeddings.isEmpty || metadata.isEmpty then
    .ok (s, false)
  else if embeddings.length ≠ metadata.length then
    .error "Number of embeddings must match number of metadata entries"
  else if embeddings.any (fun v => v.length ≠ (embeddings.headD []).length) then
    .error "setting an array element with a sequence"
  else if (embeddings.headD []).length ≠ s.dimension then
    .error ("Embedding dimension mismatch: expected " ++ toString s.dimension
      ++ ", got " ++ toString (embeddings.headD []).length)
  else
    let normed := embeddings.map (normalize_vector sqrt)
    let s1 : FAISSVectorStore :=
      { s with vectors := s.vectors ++ normed, metadata := s.metadata ++ metadata }
    .ok (s1, s1.vectors.length % 100 == 0)

/-- Inner product of two vectors (`IndexFlatIP` similarity). -/
def dot (a b : List ℚ) : ℚ :=
  ((a.zip b).map (fun p => p.1 * p.2)).sum

/-- Descending-score order on (index, score) pairs. -/
def scoreGE (a b : Nat × ℚ) : Prop := b.2 ≤ a.2

instance : DecidableRel scoreGE := fun a b => inferInstanceAs (Decidable (b.2 ≤ a.2))

instance : IsTotal (Nat × ℚ) scoreGE := ⟨fun a b => le_total b.2 a.2⟩

instance : IsTrans (Nat × ℚ) scoreGE := ⟨fun _ _ _ h1 h2 => le_trans h2 h1⟩

/-- Model of `faiss.IndexFlatIP.search` on the stored `vectors` with query `q`:
exact inner-product search, the top `k` (index, score) pairs in descending
score order.  When fewer than `k` vectors are stored FAISS pads with index -1;
the model returns only the real entries (the Python loop skips the -1s). -/
def faiss_search (vectors : List (List ℚ)) (q : List ℚ) (k : Nat) : List (Nat × ℚ) :=
  let scored := vectors.enum.map (fun p => (p.1, dot q p.2))
  (List.insertionSort scoreGE scored).take k

/-- Python truthiness of the optional `filter_metadata` dict: `None` and the
empty dict are both falsy (vector_store.py:178,191). -/
def filter_truthy (filt : Option Metadata) : Bool :=
  match filt with
  | none => false
  | some f => !f.isEmpty

/-- The post-hoc filter at vector_store.py:191-197: every filter field must
match the candidate metadata exactly. -/
def matches_filter (filt : Option Metadata) (meta : Metadata) : Bool :=
  match filt with
  | none => true
  | some f => f.all (fun p => meta.get p.1 == some p.2)

/-- The result-collection loop of `search` (vector_store.py:182-202): walk the
candidates in rank order, skip non-matching ones when a (truthy) filter is
given, and stop right after the `top_k`-th collected result (`break` after
`append` when `len(results) >= top_k`).  `count` is `len(results)` so far. -/
def collect_results (md : List Metadata) (filt : Option Metadata) (top_k : Nat) :
    Nat → List (Nat × ℚ) → List (Metadata × ℚ)
  | _, [] => []
  | count, (idx, score) :: rest =>
    let meta := md.getD idx []
    if filter_truthy filt && !(matches_filter filt meta) then
      collect_results md filt top_k count rest
    else if count + 1 ≥ top_k then
      [(meta, score)]
    else
      (meta, score) :: collect_results md filt top_k (count + 1) rest

/-- `FAISSVectorStore.search` (vector_store.py:148-209): empty index returns
no results; otherwise the query is normalized like stored vectors, `3*top_k`
raw candidates are fetched when a filter is given (`top_k` otherwise), and the
collection loop runs over them. -/
def search (sqrt : ℚ → ℚ) (s : FAISSVectorStore) (query_embedding : List ℚ)
    (top_k : Nat) (filter_metadata : Option Metadata) : List (Metadata × ℚ) :=
  if s.vectors.length = 0 then []
  else
    let query_vector := normalize_vector sqrt query_embedding
    let search_k := if filter_truthy filter_metadata then top_k * 3 else top_k
    let candidates := faiss_search s.vectors query_vector search_k
    collect_results s.metadata filter_metadata top_k 0 candidates

/-- `FAISSVectorStore.delete_by_document_id` (vector_store.py:211-253).
Returns the new state and whether `save_index` ran: nothing matching returns
early without saving; otherwise the kept vectors are reconstructed from the
live index (no re-normalization), the index is reinitialized, and the kept
vectors and metadata are re-inserted in their original relative order, then
saved unconditionally. -/
def delete_by_document_id (s : FAISSVectorStore) (document_id : String) :
    FAISSVectorStore × Bool :=
  let indices_to_keep :=
    ((s.metadata.enum.filter (fun p => p.2.get "document_id" != some document_id)).map Prod.fst)
  if indices_to_keep.length = s.metadata.length then
    (s, false)
  else
    let vectors_to_keep := indices_to_keep.map (fun i => s.vectors.getD i [])
    let metadata_to_keep := indices_to_keep.map (fun i => s.metadata.getD i [])
    let s0 := initialize_index s.dimension
    if vectors_to_keep.isEmpty then
      (s0, true)
    else
      ({ s0 with vectors := vectors_to_keep, metadata := metadata_to_keep }, true)

/-- `FAISSVectorStore.get_stats` (vector_store.py:255-262). -/
structure IndexStats where
  total_vectors : Nat
  dimension : Nat
deriving Repr, DecidableEq

/-- `FAISSVectorStore.get_stats` (vector_store.py:255-262): `ntotal` and the
configured dimension. -/
def get_stats (s : FAISSVectorStore) : IndexStats :=
  { total_vectors := s.vectors.length, dimension := s.dimension }

/-! ### Segmenter (chunking.py) -/

/-- One page dict with `page_number` and `text` (chunking.py:92-94). -/
structure PageContent where
  page_number : Nat
  text : String
deriving Repr, DecidableEq

/-- One chunk produced by page chunking (chunking.py:100-107). -/
structure PageChunk where
  chunk_index : Nat
  text : String
  document_id : String
  page_number : Nat
deriving Repr, DecidableEq

/-- Modelled from the spec: the external `RecursiveCharacterTextSplitter`
consumed by `ChunkingService` (its code is the `langchain` library, not in the
repository).  Spec §4.1 `chunk_plain`: empty input yields an empty sequence;
a text no longer than `size` stays one chunk; a longer text is segmented into
chunks of at most `size` characters at the separator hierarchy (the hierarchy
and the overlap are abstracted to plain character blocks here, since no claim
depends on the exact split positions). -/
def chunk_plain (size : Nat) (text : String) : List String :=
  if text.isEmpty then []
  else if text.length ≤ size then [text]
  else (text.toList.toChunks size).map (fun cs => String.mk cs)

/-- The page loop of `ChunkingService.chunk_pdf_by_pages` (chunking.py:92-109):
each page is split independently, the chunk index is one running counter over
all pages, and each chunk records its page number. -/
def chunk_pages_go (split : String → List String) (document_id : String) :
    List PageContent → Nat → List PageChunk
  | [], _ => []
  | page :: rest, idx =>
    let page_chunks := split page.text
    (page_chunks.enum.map (fun p =>
      { chunk_index := idx + p.1, text := p.2
        document_id := document_id, page_number := page.page_number })) ++
    chunk_pages_go split document_id rest (idx + page_chunks.length)

/-- `ChunkingService.chunk_pdf_by_pages` (chunking.py:74-112), parametric in
the text splitter held in `self.text_splitter`. -/
def chunk_pdf_by_pages (split : String → List String) (pages : List PageContent)
    (document_id : String) : List PageChunk :=
  chunk_pages_go split document_id pages 0

/-! ### Orchestrator: RAG chat (rag_chat.py, chat.py) -/

/-- One chunk record in the `chunks` collection (document_processor.py:239-247). -/
structure ChunkRecord where
  chunk_id : String
  document_id : String
  text : String
deriving Repr, DecidableEq

/-- One document record in the `documents` collection (the fields the chat
path reads: `_id`, `user_id`, `metadata.file_name`). -/
structure DocRecord where
  doc_id : String
  user_id : String
  file_name : String
deriving Repr, DecidableEq

/-- The two MongoDB collections the chat path queries. -/
structure ChatDB where
  chunks : List ChunkRecord
  documents : List DocRecord
deriving Repr, DecidableEq

/-- `db.chunks.find_one({"_id": chunk_id})`; `metadata.get("chunk_id")` may be
`None`, which matches nothing. -/
def find_chunk (db : ChatDB) (chunk_id : Option String) : Option ChunkRecord :=
  match chunk_id with
  | none => none
  | some c => db.chunks.find? (fun ch => ch.chunk_id == c)

/-- `db.documents.find_one({"_id": doc_id})`. -/
def find_doc (db : ChatDB) (doc_id : String) : Option DocRecord :=
  db.documents.find? (fun d => d.doc_id == doc_id)

/-- Python truthiness of the optional `document_ids` list (rag_chat.py:246). -/
def ids_truthy (ids : Option (List String)) : Bool :=
  match ids with
  | none => false
  | some l => !l.isEmpty

/-- `value not in document_ids` where the value is `metadata.get("document_id")`
(rag_chat.py:246): a missing value is not a member. -/
def id_member (ids : List String) (v : Option String) : Bool :=
  match v with
  | none => false
  | some d => ids.contains d

/-- `RAGChatService._get_chunk_details` (rag_chat.py:234-263): for each hit in
rank order, filter by requested document ids, look the chunk up, verify
ownership when a `user_id` is set, and keep (chunk, score); missing records
are skipped silently. -/
def _get_chunk_details (db : ChatDB) (user_id : Option String)
    (search_results : List (Metadata × ℚ)) (document_ids : Option (List String)) :
    List (ChunkRecord × ℚ) :=
  match search_results with
  | [] => []
  | (metadata, score) :: rest =>
    let tail := _get_chunk_details db user_id rest document_ids
    if ids_truthy document_ids
        && !(id_member (document_ids.getD []) (metadata.get "document_id")) then
      tail
    else
      match find_chunk db (metadata.get "chunk_id") with
      | none => tail
      | some chunk_data =>
        match user_id with
        | none => (chunk_data, score) :: tail
        | some uid =>
          match find_doc db chunk_data.document_id with
          | none => tail
          | some doc => if doc.user_id == uid then (chunk_data, score) :: tail else tail

/-- The fixed short-circuit answer at rag_chat.py:105 and rag_chat.py:184. -/
def insufficient_info_answer : String :=
  "I don\'t have any relevant information to answer your question. Please upload relevant documents first."

/-- A `SourceReference` as built by `_build_sources` (rag_chat.py:326-357). -/
structure ChatSource where
  document_id : String
  document_name : String
  chunk_text : String
  relevance_score : ℚ
deriving Repr, DecidableEq

/-- `RAGChatService._build_sources` (rag_chat.py:326-357): one source per
resolved chunk whose document still exists, with a 200-character preview. -/
def _build_sources (db : ChatDB) (chunks : List (ChunkRecord × ℚ)) : List ChatSource :=
  chunks.filterMap (fun p =>
    (find_doc db p.1.document_id).map (fun d =>
      { document_id := p.1.document_id, document_name := d.file_name
        chunk_text := p.1.text.take 200 ++ "...", relevance_score := p.2 }))

/-- The `{answer, sources}` response plus the number of generation-backend
calls the request made (0 or 1), so that "no generation call" is observable. -/
structure ChatOutcome where
  answer : String
  sources : List ChatSource
  generation_calls : Nat
deriving Repr, DecidableEq

/-- `RAGChatService.chat` (rag_chat.py:65-153) after the index search: resolve
the hits, short-circuit with the fixed answer and no sources (and no
generation call) when nothing resolved, else call the generation backend
(`llm_answer` is its reply) and attach sources. -/
def chat (db : ChatDB) (user_id : Option String) (llm_answer : String)
    (search_results : List (Metadata × ℚ)) (document_ids : Option (List String)) :
    ChatOutcome :=
  let relevant_chunks := _get_chunk_details db user_id search_results document_ids
  if relevant_chunks.isEmpty then
    { answer := insufficient_info_answer, sources := [], generation_calls := 0 }
  else
    { answer := llm_answer, sources := _build_sources db relevant_chunks
      generation_calls := 1 }

/-- The word-by-word simulated streaming loop (rag_chat.py:209-216): Python
`str.split()` drops empty pieces; every word but the last is yielded with a
trailing space. -/
def stream_words (answer : String) : List String :=
  let ws := (answer.splitOn " ").filter (fun w => !w.isEmpty)
  ws.enum.map (fun p => if p.1 + 1 = ws.length then p.2 else p.2 ++ " ")

/-- The normal path of `RAGChatService.chat_stream` (rag_chat.py:155-229):
the yielded chunks and the number of generation-backend calls. -/
def chat_stream (db : ChatDB) (user_id : Option String) (llm_answer : String)
    (search_results : List (Metadata × ℚ)) (document_ids : Option (List String)) :
    List String × Nat :=
  let relevant_chunks := _get_chunk_details db user_id search_results document_ids
  if relevant_chunks.isEmpty then
    ([insufficient_info_answer], 0)
  else
    (stream_words llm_answer, 1)

/-- One server-sent event of the `/chat/stream` endpoint (chat.py:101-113). -/
inductive StreamEvent where
  | content (text : String)
  | done
  | error (message : String)
deriving Repr, DecidableEq

/-- Whether an event is an `{error}` event. -/
def StreamEvent.isError : StreamEvent → Bool
  | .error _ => true
  | _ => false

/-- What the `chat_stream` generator yields when an internal failure with
message `failure` interrupts it after `yielded_before` (rag_chat.py:230-232):
the `except` clause converts the exception into one final yielded string
`"Error: <msg>"`, so the generator itself never raises. -/
def chat_stream_yields (yielded_before : List String) (failure : Option String) :
    List String :=
  match failure with
  | none => yielded_before
  | some msg => yielded_before ++ ["Error: " ++ msg]

/-- The SSE wrapper `generate` (chat.py:101-113): every yielded chunk becomes
a `{content}` event and a `{done}` event follows; its own `except` (which
would emit `{error}`) fires only if the service generator raises. -/
def generate_sse (service_yields : List String) : List StreamEvent :=
  service_yields.map StreamEvent.content ++ [StreamEvent.done]

/-- The full event sequence delivered for a streaming request whose service
generator yields `yielded_before` and then hits an internal failure. -/
def sse_events (yielded_before : List String) (failure : Option String) :
    List StreamEvent :=
  generate_sse (chat_stream_yields yielded_before failure)

/-! ### Document processing pipeline (document_processor.py) -/

/-- `ProcessingStatus` (models). -/
inductive ProcessingStatus where
  | pending
  | processing
  | completed
  | failed
deriving Repr, DecidableEq

/-- The stages run inside `process_document`'s try block after the status is
set to Processing (document_processor.py:60-71 via `_process_pdf` /
`_process_audio` / `_process_video` and `_store_chunks`). -/
inductive PipelineStage where
  | extraction
  | transcription
  | chunking
  | embedding
  | indexing
deriving Repr, DecidableEq

/-- The status/error fields of one Document record. -/
structure DocumentRecord where
  status : ProcessingStatus
  error_message : Option String
deriving Repr, DecidableEq

/-- Run the pipeline stages in order against an outcome oracle, stopping at
the first raised exception (its message is the `Except.error`). -/
def run_pipeline (oracle : PipelineStage → Except String Unit) :
    List PipelineStage → Except String Unit
  | [] => .ok ()
  | stage :: rest =>
    match oracle stage with
    | .ok _ => run_pipeline oracle rest
    | .error msg => .error msg

/-- `DocumentProcessor.process_document` (document_processor.py:31-99): the
status is set to Processing, the type-specific pipeline runs, and the status
is set to Completed on success; the `except` clause (lines 87-99) catches any
stage failure and sets the terminal Failed status with the captured message. -/
def process_document (doc : DocumentRecord) (stages : List PipelineStage)
    (oracle : PipelineStage → Except String Unit) : DocumentRecord :=
  let processing := { doc with status := ProcessingStatus.processing }
  match run_pipeline oracle stages with
  | .ok _ => { processing with status := ProcessingStatus.completed }
  | .error msg =>
    { processing with status := ProcessingStatus.failed, error_message := some msg }

/-! ## Helper lemmas -/

/-- The chunk count of `chunk_pdf_by_pages` is the sum of the per-page split
sizes, whatever the running start index. -/
theorem chunk_pages_go_length (split : String → List String) (document_id : String) :
    ∀ (pages : List PageContent) (idx : Nat),
      (chunk_pages_go split document_id pages idx).length =
        (pages.map (fun p => (split p.text).length)).sum := by
  intro pages
  induction pages with
  | nil => intro idx; simp [chunk_pages_go]
  | cons page rest ih =>
    intro idx
    simp [chunk_pages_go, ih]

/-- The squared norm of the all-zero vector is zero. -/
theorem normSq_replicate_zero (n : Nat) : normSq (List.replicate n (0 : ℚ)) = 0 := by
  simp [normSq, List.map_replicate]

/-- A vector of zero squared norm is returned unchanged (the `norm == 0`
branch of `_normalize_vector`): no division happens. -/
theorem normalize_zero_norm (sqrt : ℚ → ℚ) (h0 : sqrt 0 = 0) (v : List ℚ)
    (h : normSq v = 0) : normalize_vector sqrt v = v := by
  simp [normalize_vector, h, h0]

/-! ## Claims -/

/-- C7 counterexample: two pages, the first non-empty, the second empty.  The
empty page yields no chunks (spec §4.1: empty input yields an empty sequence),
so only 1 chunk is produced for 2 pages, refuting "chunk count ≥ page count
when at least one page is non-empty". -/
theorem C7_counterexample :
    (∃ page ∈ [PageContent.mk 1 "hello", PageContent.mk 2 ""], ¬page.text.isEmpty) ∧
    ¬((chunk_pdf_by_pages (chunk_plain 1000)
        [PageContent.mk 1 "hello", PageContent.mk 2 ""] "doc").length ≥
      [PageContent.mk 1 "hello", PageContent.mk 2 ""].length) := by
  decide

/-- C7 (amended): when every page yields at least one chunk from the splitter
(in particular every page whose text is non-empty after whitespace stripping),
`chunk_pdf_by_pages` produces at least as many chunks as there are pages. -/
theorem C7_chunk_count_ge_page_count (split : String → List String)
    (pages : List PageContent) (document_id : String)
    (h : ∀ page ∈ pages, split page.text ≠ []) :
    (chunk_pdf_by_pages split pages document_id).length ≥ pages.length := by
  rw [chunk_pdf_by_pages, chunk_pages_go_length]
  induction pages with
  | nil => simp
  | cons page rest ih =>
    have h1 : 0 < (split page.text).length :=
      List.length_pos.mpr (h page (List.mem_cons_self page rest))
    have h2 := ih (fun q hq => h q (List.mem_cons_of_mem page hq))
    simp only [List.map_cons, List.sum_cons, List.length_cons]
    omega

/-- C7 witness: two non-empty pages yield at least two chunks. -/
theorem C7_witness :
    (∀ page ∈ [PageContent.mk 1 "alpha", PageContent.mk 2 "beta"],
      chunk_plain 1000 page.text ≠ []) ∧
    (chunk_pdf_by_pages (chunk_plain 1000)
      [PageContent.mk 1 "alpha", PageContent.mk 2 "beta"] "doc").length ≥
      [PageContent.mk 1 "alpha", PageContent.mk 2 "beta"].length :=
  ⟨by decide,
   C7_chunk_count_ge_page_count (chunk_plain 1000)
     [PageContent.mk 1 "alpha", PageContent.mk 2 "beta"] "doc" (by decide)⟩

/-- C8: whenever the pipeline fails at any stage, `process_document` leaves
the Document in the terminal Failed status carrying the captured message, and
never in the Processing status. -/
theorem C8_failure_sets_failed_status (doc : DocumentRecord)
    (stages : List PipelineStage) (oracle : PipelineStage → Except String Unit)
    (msg : String) (h : run_pipeline oracle stages = .error msg) :
    (process_document doc stages oracle).status = ProcessingStatus.failed ∧
    (process_document doc stages oracle).error_message = some msg ∧
    (process_document doc stages oracle).status ≠ ProcessingStatus.processing := by
  refine ⟨?_, ?_, ?_⟩ <;> simp [process_document, h]

/-- C8 witness: a pipeline failing at the embedding stage. -/
theorem C8_witness :
    run_pipeline
      (fun st => if st = PipelineStage.embedding then .error "backend unavailable" else .ok ())
      [PipelineStage.extraction, PipelineStage.chunking, PipelineStage.embedding,
        PipelineStage.indexing] = .error "backend unavailable" ∧
    (process_document ⟨ProcessingStatus.pending, none⟩
      [PipelineStage.extraction, PipelineStage.chunking, PipelineStage.embedding,
        PipelineStage.indexing]
      (fun st => if st = PipelineStage.embedding then .error "backend unavailable" else .ok ())).status
      = ProcessingStatus.failed :=
  ⟨rfl,
   (C8_failure_sets_failed_status ⟨ProcessingStatus.pending, none⟩
     [PipelineStage.extraction, PipelineStage.chunking, PipelineStage.embedding,
       PipelineStage.indexing]
     (fun st => if st = PipelineStage.embedding then .error "backend unavailable" else .ok ())
     "backend unavailable" rfl).1⟩

/-- C6: when the resolved chunk set is empty, both the batch and the streaming
chat paths return the fixed insufficient-information answer with no sources,
and the generation backend is never invoked (zero generation calls). -/
theorem C6_empty_resolution_short_circuits (db : ChatDB) (user_id : Option String)
    (llm_answer : String) (search_results : List (Metadata × ℚ))
    (document_ids : Option (List String))
    (h : _get_chunk_details db user_id search_results document_ids = []) :
    chat db user_id llm_answer search_results document_ids =
      { answer := insufficient_info_answer, sources := [], generation_calls := 0 } ∧
    chat_stream db user_id llm_answer search_results document_ids =
      ([insufficient_info_answer], 0) := by
  constructor <;> simp [chat, chat_stream, h]

/-- C6 witness: a hit whose chunk record is absent from the store resolves to
nothing, and both chat paths short-circuit without a generation call. -/
theorem C6_witness :
    _get_chunk_details ⟨[], []⟩ none [([("chunk_id", "c1")], (1 : ℚ))] none = [] ∧
    chat ⟨[], []⟩ none "ans" [([("chunk_id", "c1")], (1 : ℚ))] none =
      { answer := insufficient_info_answer, sources := [], generation_calls := 0 } ∧
    chat_stream ⟨[], []⟩ none "ans" [([("chunk_id", "c1")], (1 : ℚ))] none =
      ([insufficient_info_answer], 0) :=
  ⟨by decide,
   (C6_empty_resolution_short_circuits ⟨[], []⟩ none "ans"
     [([("chunk_id", "c1")], (1 : ℚ))] none (by decide)).1,
   (C6_empty_resolution_short_circuits ⟨[], []⟩ none "ans"
     [([("chunk_id", "c1")], (1 : ℚ))] none (by decide)).2⟩

/-- C5 counterexample: a mid-stream internal failure after one delivered chunk
produces a `{content "Error: ..."}` event followed by a normal `{done}` event;
the sequence is NOT terminated by an `{error}` event (none occurs at all),
refuting the claim as stated. -/
theorem C5_counterexample :
    sse_events ["The answer "] (some "backend timeout") =
      [StreamEvent.content "The answer ",
       StreamEvent.content "Error: backend timeout", StreamEvent.done] ∧
    (sse_events ["The answer "] (some "backend timeout")).all
      (fun e => !e.isError) = true ∧
    (sse_events ["The answer "] (some "backend timeout")).getLast? =
      some StreamEvent.done := by
  refine ⟨by decide, by decide, by decide⟩

/-- C5 (amended): an internal failure after streaming has started does not
propagate, but it is surfaced as a final `{content}` event whose text is
`"Error: <message>"`, after which the stream closes with the normal `{done}`
event; no `{error}` event is emitted on this path. -/
theorem C5_failure_becomes_error_content_then_done (yielded_before : List String)
    (msg : String) :
    sse_events yielded_before (some msg) =
      yielded_before.map StreamEvent.content ++
        [StreamEvent.content ("Error: " ++ msg), StreamEvent.done] ∧
    (sse_events yielded_before (some msg)).getLast? = some StreamEvent.done ∧
    (sse_events yielded_before (some msg)).all (fun e => !e.isError) = true := by
  have heq : sse_events yielded_before (some msg) =
      yielded_before.map StreamEvent.content ++
        [StreamEvent.content ("Error: " ++ msg), StreamEvent.done] := by
    simp [sse_events, chat_stream_yields, generate_sse]
  refine ⟨heq, ?_, ?_⟩
  · simp [heq]
  · rw [heq, List.all_append, Bool.and_eq_true]
    constructor
    · rw [List.all_eq_true]
      intro e he
      obtain ⟨y, _, rfl⟩ := List.mem_map.mp he
      rfl
    · simp [StreamEvent.isError]

/-- Mapping the positions kept by an `enumerate`-based filter back through
`getD` into the full lists recovers the filtered zip of the suffix lists:
the core of the delete-by-rebuild correctness. -/
theorem enumFrom_filter_getD_zip (p : Metadata → Bool)
    (V : List (List ℚ)) (M : List Metadata) :
    ∀ (m : List Metadata) (v : List (List ℚ)) (n : Nat),
      v.length = m.length →
      (∀ j, V.getD (n + j) [] = v.getD j []) →
      (∀ j, M.getD (n + j) [] = m.getD j []) →
      ((m.enumFrom n).filter (fun q => p q.2)).map
          (fun q => (V.getD q.1 [], M.getD q.1 [])) =
        (v.zip m).filter (fun q => p q.2) := by
  intro m
  induction m with
  | nil =>
    intro v n hlen _ _
    have hv : v = [] := List.length_eq_zero.mp hlen
    subst hv
    rfl
  | cons b m' ih =>
    intro v n hlen hV hM
    cases v with
    | nil => simp at hlen
    | cons a v' =>
      have hV0 : V.getD n [] = a := by simpa using hV 0
      have hM0 : M.getD n [] = b := by simpa using hM 0
      have hV' : ∀ j, V.getD (n + 1 + j) [] = v'.getD j [] := by
        intro j
        have h := hV (j + 1)
        rw [show n + (j + 1) = n + 1 + j by omega] at h
        simpa using h
      have hM' : ∀ j, M.getD (n + 1 + j) [] = m'.getD j [] := by
        intro j
        have h := hM (j + 1)
        rw [show n + (j + 1) = n + 1 + j by omega] at h
        simpa using h
      have hlen' : v'.length = m'.length := by simpa using hlen
      have ihv := ih v' (n + 1) hlen' hV' hM'
      simp only [List.enumFrom, List.zip_cons_cons, List.filter_cons]
      cases hpb : p b with
      | true =>
        simp only [hpb, eq_self_iff_true, if_true, List.map_cons, hV0, hM0]
        rw [ihv]
      | false =>
        simp only [hpb, Bool.false_eq_true, if_false]
        exact ihv

/-- Filtering an enumerated list on the element part keeps as many entries as
filtering the plain list. -/
theorem length_filter_enumFrom (p : Metadata → Bool) :
    ∀ (m : List Metadata) (n : Nat),
      ((m.enumFrom n).filter (fun q => p q.2)).length = (m.filter p).length := by
  intro m
  induction m with
  | nil => intro n; rfl
  | cons b m' ih =>
    intro n
    simp only [List.enumFrom, List.filter_cons]
    cases hpb : p b <;> simp [ih (n + 1)]

/-- The kept-record predicate of `delete_by_document_id`, complemented: a
record is removed exactly when its `document_id` equals the target. -/
theorem not_keep_eq_removed (document_id : String) :
    (fun m : Metadata => !(m.get "document_id" != some document_id)) =
      (fun m : Metadata => m.get "document_id" == some document_id) := by
  funext m
  simp [bne]

/-- After `delete_by_document_id`, the (vector, metadata) pairing is exactly
the original pairing with the target document's records filtered out, in the
original relative order and with the vectors unchanged. -/
theorem delete_zip_eq (s : FAISSVectorStore) (document_id : String)
    (hlen : s.vectors.length = s.metadata.length) :
    ((delete_by_document_id s document_id).1.vectors).zip
        ((delete_by_document_id s document_id).1.metadata) =
      (s.vectors.zip s.metadata).filter
        (fun q => q.2.get "document_id" != some document_id) := by
  have hmain := enumFrom_filter_getD_zip
    (fun meta => meta.get "document_id" != some document_id)
    s.vectors s.metadata s.metadata s.vectors 0 hlen
    (fun j => by rw [Nat.zero_add]) (fun j => by rw [Nat.zero_add])
  beta_reduce at hmain
  simp only [delete_by_document_id, List.enum]
  split
  · rename_i hkeep
    rw [List.length_map] at hkeep
    have hfl : (s.metadata.filter
        (fun m => m.get "document_id" != some document_id)).length =
        s.metadata.length := by
      rw [← length_filter_enumFrom
        (fun m => m.get "document_id" != some document_id) s.metadata 0]
      exact hkeep
    have hzlen : ((s.vectors.zip s.metadata).filter
        (fun q => q.2.get "document_id" != some document_id)).length =
        (s.vectors.zip s.metadata).length := by
      rw [← hmain, List.length_map,
        length_filter_enumFrom
          (fun m => m.get "document_id" != some document_id) s.metadata 0,
        hfl, List.length_zip, hlen, Nat.min_self]
    exact ((List.filter_sublist _).eq_of_length hzlen).symm
  · rename_i hkeep
    split
    · rename_i hempty
      rw [List.isEmpty_iff, List.map_eq_nil_iff, List.map_eq_nil_iff] at hempty
      rw [hempty] at hmain
      simp only [List.map_nil] at hmain
      simp [initialize_index, ← hmain]
    · rw [List.zip_map', List.map_map]
      exact hmain

/-- The vector count after `delete_by_document_id` is the prior count minus
the number of records carrying the target document id. -/
theorem delete_total_count (s : FAISSVectorStore) (document_id : String)
    (hlen : s.vectors.length = s.metadata.length) :
    (delete_by_document_id s document_id).1.vectors.length =
      s.vectors.length -
        s.metadata.countP (fun m => m.get "document_id" == some document_id) := by
  have hsplit : s.metadata.length =
      (s.metadata.filter (fun m => m.get "document_id" != some document_id)).length +
      (s.metadata.filter
        (fun m => !(m.get "document_id" != some document_id))).length :=
    List.length_eq_length_filter_add _
  rw [not_keep_eq_removed document_id] at hsplit
  rw [List.countP_eq_length_filter]
  simp only [delete_by_document_id, List.enum]
  split
  · rename_i hkeep
    rw [List.length_map,
      length_filter_enumFrom
        (fun m => m.get "document_id" != some document_id) s.metadata 0] at hkeep
    dsimp only
    omega
  · rename_i hkeep
    rw [List.length_map,
      length_filter_enumFrom
        (fun m => m.get "document_id" != some document_id) s.metadata 0] at hkeep
    split
    · rename_i hempty
      rw [List.isEmpty_iff, List.map_eq_nil_iff, List.map_eq_nil_iff] at hempty
      have h0 : ((s.metadata.enumFrom 0).filter
          (fun q => q.2.get "document_id" != some document_id)).length = 0 := by
        rw [hempty]
        rfl
      rw [length_filter_enumFrom
        (fun m => m.get "document_id" != some document_id) s.metadata 0] at h0
      dsimp only
      simp only [initialize_index, List.length_nil]
      omega
    · dsimp only
      simp only [List.length_map]
      rw [length_filter_enumFrom
        (fun m => m.get "document_id" != some document_id) s.metadata 0]
      omega

/-- `delete_by_document_id` keeps vectors and metadata aligned. -/
theorem delete_preserves_align (s : FAISSVectorStore) (document_id : String)
    (hlen : s.vectors.length = s.metadata.length) :
    (delete_by_document_id s document_id).1.vectors.length =
      (delete_by_document_id s document_id).1.metadata.length := by
  simp only [delete_by_document_id]
  split
  · exact hlen
  · split
    · rfl
    · simp

/-- A successful `add_vectors` keeps vectors and metadata aligned. -/
theorem add_preserves_align (sqrt : ℚ → ℚ) (s : FAISSVectorStore)
    (e : List (List ℚ)) (md : List Metadata) (s1 : FAISSVectorStore) (saved : Bool)
    (hlen : s.vectors.length = s.metadata.length)
    (h : add_vectors sqrt s e md = .ok (s1, saved)) :
    s1.vectors.length = s1.metadata.length := by
  simp only [add_vectors] at h
  split at h
  · injection h with h1
    rw [Prod.mk.injEq] at h1
    obtain ⟨hA, _⟩ := h1
    subst hA
    exact hlen
  · split at h
    · exact Except.noConfusion h
    · split at h
      · exact Except.noConfusion h
      · split at h
        · exact Except.noConfusion h
        · rename_i hne _ _
          injection h with h1
          rw [Prod.mk.injEq] at h1
          obtain ⟨hA, _⟩ := h1
          subst hA
          have he : e.length = md.length := by omega
          simp [hlen, he]

/-- A falsy filter (absent, or the empty dict) matches every metadata. -/
theorem filter_truthy_false_matches (filt : Option Metadata) (meta : Metadata)
    (h : filter_truthy filt = false) : matches_filter filt meta = true := by
  cases filt with
  | none => rfl
  | some f =>
    simp only [filter_truthy, Bool.not_eq_false'] at h
    rw [List.isEmpty_iff] at h
    subst h
    rfl

/-- When the skip guard of the collection loop is not taken, the candidate
matches the filter. -/
theorem matches_of_guard_false (filt : Option Metadata) (meta : Metadata)
    (h : ¬(filter_truthy filt && !(matches_filter filt meta)) = true) :
    matches_filter filt meta = true := by
  cases hft : filter_truthy filt with
  | false => exact filter_truthy_false_matches filt meta hft
  | true =>
    cases hm : matches_filter filt meta with
    | true => rfl
    | false => exact absurd (by rw [hft, hm]; rfl) h

/-- Every result collected by the search loop matches the filter. -/
theorem mem_collect_matches (md : List Metadata) (filt : Option Metadata)
    (top_k : Nat) :
    ∀ (count : Nat) (cands : List (Nat × ℚ)) (r : Metadata × ℚ),
      r ∈ collect_results md filt top_k count cands →
      matches_filter filt r.1 = true := by
  intro count cands
  induction cands generalizing count with
  | nil =>
    intro r hr
    simp [collect_results] at hr
  | cons c rest ih =>
    intro r hr
    obtain ⟨idx, score⟩ := c
    simp only [collect_results] at hr
    split at hr
    · exact ih count r hr
    · rename_i hguard
      split at hr
      · rw [List.mem_singleton] at hr
        subst hr
        exact matches_of_guard_false filt _ hguard
      · rw [List.mem_cons] at hr
        rcases hr with hr | hr
        · subst hr
          exact matches_of_guard_false filt _ hguard
        · exact ih (count + 1) r hr

/-- The collection loop gathers at most `top_k - count` further results. -/
theorem collect_length_le (md : List Metadata) (filt : Option Metadata)
    (top_k : Nat) :
    ∀ (count : Nat) (cands : List (Nat × ℚ)), count < top_k →
      (collect_results md filt top_k count cands).length ≤ top_k - count := by
  intro count cands
  induction cands generalizing count with
  | nil =>
    intro h
    simp [collect_results]
  | cons c rest ih =>
    intro hcount
    obtain ⟨idx, score⟩ := c
    simp only [collect_results]
    split
    · exact ih count hcount
    · split
      · simp only [List.length_singleton]
        omega
      · rename_i hlt
        simp only [List.length_cons]
        have := ih (count + 1) (by omega)
        omega

/-- The scores of the collected results form a sublist of the candidate
scores, in order. -/
theorem collect_scores_sublist (md : List Metadata) (filt : Option Metadata)
    (top_k : Nat) :
    ∀ (count : Nat) (cands : List (Nat × ℚ)),
      List.Sublist ((collect_results md filt top_k count cands).map Prod.snd)
        (cands.map Prod.snd) := by
  intro count cands
  induction cands generalizing count with
  | nil => simp [collect_results]
  | cons c rest ih =>
    obtain ⟨idx, score⟩ := c
    simp only [collect_results]
    split
    · exact (ih count).trans (List.sublist_cons_self _ _)
    · split
      · simp only [List.map_cons, List.map_nil]
        exact List.Sublist.cons₂ _ (List.nil_sublist _)
      · simp only [List.map_cons]
        exact List.Sublist.cons₂ _ (ih (count + 1))

/-- The candidate scores coming back from the FAISS search are in descending
order. -/
theorem faiss_search_sorted (vectors : List (List ℚ)) (q : List ℚ) (k : Nat) :
    ((faiss_search vectors q k).map Prod.snd).Pairwise (fun a b => b ≤ a) := by
  have hs : (List.insertionSort scoreGE
      (vectors.enum.map (fun p => (p.1, dot q p.2)))).Pairwise scoreGE :=
    List.sorted_insertionSort scoreGE _
  have htake := List.Pairwise.sublist (List.take_sublist k _) hs
  rw [faiss_search, List.pairwise_map]
  exact htake

/-- Every index returned by the FAISS search addresses a stored vector. -/
theorem faiss_search_index_lt (vectors : List (List ℚ)) (q : List ℚ) (k : Nat) :
    ∀ p ∈ faiss_search vectors q k, p.1 < vectors.length := by
  intro p hp
  have h1 : p ∈ List.insertionSort scoreGE
      (vectors.enum.map (fun r => (r.1, dot q r.2))) :=
    List.Sublist.mem hp (List.take_sublist k _)
  have h2 : p ∈ vectors.enum.map (fun r => (r.1, dot q r.2)) :=
    (List.perm_insertionSort scoreGE _).mem_iff.mp h1
  obtain ⟨r, hr, rfl⟩ := List.mem_map.mp h2
  exact List.fst_lt_of_mem_enum hr

/-- C3: search results are non-increasing in score, number at most `top_k`,
and every result matches every field of the supplied filter exactly. -/
theorem C3_search_ranked_bounded_filtered (sqrt : ℚ → ℚ) (s : FAISSVectorStore)
    (query_embedding : List ℚ) (top_k : Nat) (filt : Option Metadata) :
    ((search sqrt s query_embedding top_k filt).map Prod.snd).Pairwise
      (fun a b => b ≤ a) ∧
    (search sqrt s query_embedding top_k filt).length ≤ top_k ∧
    (∀ f, filt = some f → ∀ r ∈ search sqrt s query_embedding top_k filt,
      ∀ kv ∈ f, r.1.get kv.1 = some kv.2) := by
  refine ⟨?_, ?_, ?_⟩
  · simp only [search]
    split
    · simp
    · exact List.Pairwise.sublist (collect_scores_sublist _ _ _ 0 _)
        (faiss_search_sorted _ _ _)
  · simp only [search]
    split
    · simp
    · rcases Nat.eq_zero_or_pos top_k with h0 | hpos
      · subst h0
        have hnil : faiss_search s.vectors (normalize_vector sqrt query_embedding)
            (if filter_truthy filt then 0 * 3 else 0) = [] := by
          cases filter_truthy filt <;> simp [faiss_search]
        rw [hnil]
        simp [collect_results]
      · exact le_trans (collect_length_le _ _ _ 0 _ hpos) (by omega)
  · intro f hf r hr kv hkv
    have hm : matches_filter filt r.1 = true := by
      simp only [search] at hr
      split at hr
      · simp at hr
      · exact mem_collect_matches _ _ _ 0 _ r hr
    rw [hf] at hm
    simp only [matches_filter, List.all_eq_true, beq_iff_eq] at hm
    exact hm kv hkv

/-- C10: normalization is total.  The zero-norm branch returns the vector
unchanged (no division), the all-zero vector in particular is unchanged,
lengths are always preserved, and `add` accepts an all-zero embedding of the
configured dimension without failing. -/
theorem C10_normalize_total_zero_vector (sqrt : ℚ → ℚ) (h0 : sqrt 0 = 0) :
    (∀ v : List ℚ, (normalize_vector sqrt v).length = v.length) ∧
    (∀ v : List ℚ, normSq v = 0 → normalize_vector sqrt v = v) ∧
    (∀ n : Nat, normalize_vector sqrt (List.replicate n 0) = List.replicate n 0) ∧
    (∀ (s : FAISSVectorStore) (md : Metadata),
      add_vectors sqrt s [List.replicate s.dimension 0] [md] =
        .ok ({ s with vectors := s.vectors ++ [List.replicate s.dimension 0],
                      metadata := s.metadata ++ [md] },
             (s.vectors.length + 1) % 100 == 0)) := by
  refine ⟨?_, fun v h => normalize_zero_norm sqrt h0 v h,
    fun n => normalize_zero_norm sqrt h0 _ (normSq_replicate_zero n), ?_⟩
  · intro v
    by_cases h : sqrt (normSq v) = 0 <;> simp [normalize_vector, h]
  · intro s md
    simp [add_vectors, normalize_zero_norm sqrt h0 _ (normSq_replicate_zero s.dimension)]

/-- C10 witness: with the identity as square root, the all-zero 3-vector is
normalized to itself. -/
theorem C10_witness :
    (fun q : ℚ => q) 0 = 0 ∧
    normalize_vector (fun q : ℚ => q) (List.replicate 3 0) = List.replicate 3 0 :=
  ⟨rfl, (C10_normalize_total_zero_vector (fun q => q) rfl).2.2.1 3⟩

/-- C2 counterexample: `add_vectors` with an empty embeddings list and one
metadata entry (lengths differ) does NOT fail with a validation error — it
returns silently (warning only), leaving the index unchanged. -/
theorem C2_counterexample :
    add_vectors (fun q : ℚ => q) (initialize_index 3) [] [[("document_id", "d1")]] =
      .ok (initialize_index 3, false) ∧
    ([] : List (List ℚ)).length ≠ ([[("document_id", "d1")]] : List Metadata).length :=
  ⟨rfl, by decide⟩

/-- C2 (amended): when either argument list is empty, `add_vectors` returns
silently without error and without modifying the index; when both are
non-empty, a length mismatch or an embedding-dimension mismatch fails with a
`ValueError` before any mutation, leaving the index unchanged. -/
theorem C2_add_validation (sqrt : ℚ → ℚ) :
    (∀ (s : FAISSVectorStore) (e : List (List ℚ)) (md : List Metadata),
      e = [] ∨ md = [] → add_vectors sqrt s e md = .ok (s, false)) ∧
    (∀ (s : FAISSVectorStore) (e : List (List ℚ)) (md : List Metadata),
      e ≠ [] → md ≠ [] → e.length ≠ md.length →
      add_vectors sqrt s e md =
        .error "Number of embeddings must match number of metadata entries") ∧
    (∀ (s : FAISSVectorStore) (e : List (List ℚ)) (md : List Metadata),
      e ≠ [] → md ≠ [] → e.length = md.length →
      (∀ v ∈ e, v.length = (e.headD []).length) →
      (e.headD []).length ≠ s.dimension →
      add_vectors sqrt s e md =
        .error ("Embedding dimension mismatch: expected " ++ toString s.dimension
          ++ ", got " ++ toString (e.headD []).length)) := by
  refine ⟨?_, ?_, ?_⟩
  · intro s e md h
    rcases h with h | h <;> simp [add_vectors, h]
  · intro s e md he hmd hlen
    simp [add_vectors, he, hmd, hlen]
  · intro s e md he hmd hlen hrect hdim
    have hany : (e.any fun v => v.length ≠ (e.headD []).length) = false := by
      rw [List.any_eq_false]
      intro v hv
      simpa using hrect v hv
    unfold add_vectors
    rw [if_neg (by simp [he, hmd]), if_neg (fun hne => hne hlen),
      if_neg (by intro hcon; rw [hany] at hcon; exact Bool.false_ne_true hcon),
      if_pos hdim]

/-- C2 witness: two embeddings against one metadata entry fail with the
length-mismatch `ValueError`. -/
theorem C2_witness :
    ([[(1 : ℚ), 2]] : List (List ℚ)) ≠ [] ∧
    ([[("document_id", "d1")], [("document_id", "d2")]] : List Metadata) ≠ [] ∧
    add_vectors (fun q : ℚ => q) (initialize_index 2) [[1, 2]]
      [[("document_id", "d1")], [("document_id", "d2")]] =
      .error "Number of embeddings must match number of metadata entries" :=
  ⟨by decide, by decide,
   (C2_add_validation (fun q => q)).2.1 (initialize_index 2) [[1, 2]]
     [[("document_id", "d1")], [("document_id", "d2")]]
     (by decide) (by decide) (by decide)⟩

/-- C4 counterexample: an index holding 99 vectors receives a batch of 2, so
the total crosses the threshold of 100 (99 → 101), yet `add_vectors` does not
persist: the periodic save fires only when `ntotal % 100 == 0`, and
`101 % 100 ≠ 0`. -/
theorem C4_counterexample :
    add_vectors (fun q : ℚ => q)
      ⟨1, List.replicate 99 [(0 : ℚ)], List.replicate 99 [("document_id", "d0")]⟩
      [[(0 : ℚ)], [(0 : ℚ)]] [[("document_id", "d1")], [("document_id", "d1")]] =
      .ok (⟨1, List.replicate 101 [(0 : ℚ)],
            List.replicate 99 [("document_id", "d0")] ++
              [[("document_id", "d1")], [("document_id", "d1")]]⟩, false) ∧
    (99 : Nat) < 100 ∧ (100 : Nat) < 101 := by
  refine ⟨?_, by decide, by decide⟩
  have hnorm : normalize_vector (fun q : ℚ => q) [0] = [0] := by
    simp [normalize_vector, normSq]
  have hrep : List.replicate 101 [(0 : ℚ)] =
      List.replicate 99 [(0 : ℚ)] ++ [[(0 : ℚ)], [(0 : ℚ)]] := by
    rw [show (101 : Nat) = 99 + 2 from rfl, List.replicate_add]
    rfl
  simp [add_vectors, hnorm, hrep]

/-- C4 (amended): a successful non-empty insertion batch persists the index at
the end of the `add` call iff the new total vector count is an exact multiple
of 100 (`ntotal % 100 == 0`); merely crossing a multiple of 100 does not
trigger the save. -/
theorem C4_save_iff_total_multiple_of_100 (sqrt : ℚ → ℚ) (s : FAISSVectorStore)
    (e : List (List ℚ)) (md : List Metadata) (s1 : FAISSVectorStore) (saved : Bool)
    (he : e ≠ []) (hmd : md ≠ [])
    (h : add_vectors sqrt s e md = .ok (s1, saved)) :
    saved = true ↔ s1.vectors.length % 100 = 0 := by
  simp only [add_vectors] at h
  split at h
  · rename_i hcond
    rw [Bool.or_eq_true, List.isEmpty_iff, List.isEmpty_iff] at hcond
    rcases hcond with hc | hc
    · exact absurd hc he
    · exact absurd hc hmd
  · split at h
    · exact Except.noConfusion h
    · split at h
      · exact Except.noConfusion h
      · split at h
        · exact Except.noConfusion h
        · injection h with h1
          rw [Prod.mk.injEq] at h1
          obtain ⟨hA, hB⟩ := h1
          subst hA
          subst hB
          simp

/-- C4 witness: one vector added to an empty index gives total 1, not a
multiple of 100, and indeed no save happens. -/
theorem C4_witness :
    ([[(0 : ℚ)]] : List (List ℚ)) ≠ [] ∧
    ([[("document_id", "d")]] : List Metadata) ≠ [] ∧
    add_vectors (fun q : ℚ => q) (initialize_index 1) [[0]] [[("document_id", "d")]] =
      .ok (⟨1, [[(0 : ℚ)]], [[("document_id", "d")]]⟩, false) ∧
    (false = true ↔
      (⟨1, [[(0 : ℚ)]], [[("document_id", "d")]]⟩ : FAISSVectorStore).vectors.length
        % 100 = 0) := by
  have hadd : add_vectors (fun q : ℚ => q) (initialize_index 1) [[0]]
      [[("document_id", "d")]] =
      .ok (⟨1, [[(0 : ℚ)]], [[("document_id", "d")]]⟩, false) := by
    simp [add_vectors, initialize_index, normalize_vector, normSq]
  exact ⟨by decide, by decide, hadd,
    C4_save_iff_total_multiple_of_100 (fun q => q) (initialize_index 1) [[0]]
      [[("document_id", "d")]] ⟨1, [[(0 : ℚ)]], [[("document_id", "d")]]⟩ false
      (by decide) (by decide) hadd⟩

/-- C1: `delete_by_document_id` removes exactly the records whose metadata
`document_id` equals the target: the surviving (vector, metadata) pairing is
the original pairing filtered on that predicate — vectors bit-identical and in
the original relative order — and the total vector count drops by exactly the
number of records carrying the target id. -/
theorem C1_delete_rebuild_exact (s : FAISSVectorStore) (document_id : String)
    (hlen : s.vectors.length = s.metadata.length) :
    ((delete_by_document_id s document_id).1.vectors).zip
        ((delete_by_document_id s document_id).1.metadata) =
      (s.vectors.zip s.metadata).filter
        (fun q => q.2.get "document_id" != some document_id) ∧
    (get_stats (delete_by_document_id s document_id).1).total_vectors =
      (get_stats s).total_vectors -
        s.metadata.countP (fun m => m.get "document_id" == some document_id) :=
  ⟨delete_zip_eq s document_id hlen,
   by simpa [get_stats] using delete_total_count s document_id hlen⟩

/-- C1 witness: deleting document "a" from a three-record index keeps exactly
the record of document "b", vector untouched, and the total drops from 3 to 1. -/
theorem C1_witness :
    ([[(1 : ℚ)], [(2 : ℚ)], [(3 : ℚ)]] : List (List ℚ)).length =
      ([[("document_id", "a")], [("document_id", "b")],
        [("document_id", "a")]] : List Metadata).length ∧
    ((delete_by_document_id
        ⟨1, [[(1 : ℚ)], [(2 : ℚ)], [(3 : ℚ)]],
         [[("document_id", "a")], [("document_id", "b")], [("document_id", "a")]]⟩
        "a").1.vectors).zip
      ((delete_by_document_id
        ⟨1, [[(1 : ℚ)], [(2 : ℚ)], [(3 : ℚ)]],
         [[("document_id", "a")], [("document_id", "b")], [("document_id", "a")]]⟩
        "a").1.metadata) =
      (([[(1 : ℚ)], [(2 : ℚ)], [(3 : ℚ)]] : List (List ℚ)).zip
        ([[("document_id", "a")], [("document_id", "b")],
          [("document_id", "a")]] : List Metadata)).filter
        (fun q => q.2.get "document_id" != some "a") ∧
    (get_stats (delete_by_document_id
        ⟨1, [[(1 : ℚ)], [(2 : ℚ)], [(3 : ℚ)]],
         [[("document_id", "a")], [("document_id", "b")], [("document_id", "a")]]⟩
        "a").1).total_vectors =
      (get_stats
        (⟨1, [[(1 : ℚ)], [(2 : ℚ)], [(3 : ℚ)]],
         [[("document_id", "a")], [("document_id", "b")], [("document_id", "a")]]⟩
          : FAISSVectorStore)).total_vectors -
        ([[("document_id", "a")], [("document_id", "b")],
          [("document_id", "a")]] : List Metadata).countP
          (fun m => m.get "document_id" == some "a") :=
  ⟨by decide,
   (C1_delete_rebuild_exact
     ⟨1, [[(1 : ℚ)], [(2 : ℚ)], [(3 : ℚ)]],
      [[("document_id", "a")], [("document_id", "b")], [("document_id", "a")]]⟩
     "a" (by decide)).1,
   (C1_delete_rebuild_exact
     ⟨1, [[(1 : ℚ)], [(2 : ℚ)], [(3 : ℚ)]],
      [[("document_id", "a")], [("document_id", "b")], [("document_id", "a")]]⟩
     "a" (by decide)).2⟩

/-- C9: the metadata list stays aligned with the vector count across every
store operation — fresh initialization, successful `add_vectors`,
`delete_by_document_id`, cold-start load, and a save/reload round trip — and
every index the FAISS search can return addresses a valid metadata position,
so the `self.metadata[idx]` lookup in `search` never goes out of range. -/
theorem C9_vectors_metadata_aligned :
    (∀ dimension : Nat, (initialize_index dimension).vectors.length =
      (initialize_index dimension).metadata.length) ∧
    (∀ (sqrt : ℚ → ℚ) (s : FAISSVectorStore) (e : List (List ℚ))
        (md : List Metadata) (s1 : FAISSVectorStore) (saved : Bool),
      s.vectors.length = s.metadata.length →
      add_vectors sqrt s e md = .ok (s1, saved) →
      s1.vectors.length = s1.metadata.length) ∧
    (∀ (s : FAISSVectorStore) (document_id : String),
      s.vectors.length = s.metadata.length →
      (delete_by_document_id s document_id).1.vectors.length =
        (delete_by_document_id s document_id).1.metadata.length) ∧
    (∀ dimension : Nat, (load_index dimension none).vectors.length =
      (load_index dimension none).metadata.length) ∧
    (∀ (dimension : Nat) (s : FAISSVectorStore),
      s.vectors.length = s.metadata.length →
      (load_index dimension (some (save_index s))).vectors.length =
        (load_index dimension (some (save_index s))).metadata.length) ∧
    (∀ (s : FAISSVectorStore) (q : List ℚ) (k : Nat),
      s.vectors.length = s.metadata.length →
      ∀ p ∈ faiss_search s.vectors q k, p.1 < s.metadata.length) := by
  refine ⟨fun _ => rfl, add_preserves_align, delete_preserves_align,
    fun _ => rfl, ?_, ?_⟩
  · intro dimension s h
    simpa [load_index, save_index] using h
  · intro s q k h p hp
    rw [← h]
    exact faiss_search_index_lt s.vectors q k p hp

end PanScience
